import Mathlib

/-!
Shallow embedding of the argument-normalization and dispatch layer of
`imagemagick_server.py` (the `process_image` tool handler of the
ImageMagick MCP server), together with theorems settling the frozen
claims about it.

Modelling conventions:
* Python values arriving in the argument bag are modelled by `Value`.
  A value that Python's `float()` converts successfully (int, float,
  bool, numeric string) is represented as `Value.num q` with `q : ℚ`;
  a value on which `float()` raises (non-numeric string, dict, ...) is
  represented by `Value.str` / `Value.bag`; Python `None` is `Value.vNone`.
  Python floats are modelled by exact rationals.
* The external ImageMagick engine (Wand) is abstracted by `Env`:
  a file-existence oracle, the dimensions of the image at a path, and
  the metadata text produced by the `get_image_info` branch.  Calls into
  the engine are recorded as an `EngineCall` trace in the `Outcome`.
* The Python `arguments` parameter is modelled as an association list;
  the empty list stands for `None`, a non-dict value, or an empty dict
  (all of which make the source skip argument extraction identically).
* Exception messages interpolated from Python exception objects are not
  reproduced textually: the resize branch's `"Error: Invalid resize
  parameters - {e}"` is modelled by its fixed prefix, and the outer
  `except` fallback by the fixed text `"Error: <exception>"`.
-/

/-- A loosely-typed Python value as it can appear in the argument bag. -/
inductive Value where
  /-- a value `float()` converts: int, float, bool, numeric string -/
  | num (q : ℚ)
  /-- a string on which `float()` raises ValueError -/
  | str (s : String)
  /-- Python `None` -/
  | vNone
  /-- a nested dict (sub-bag); `float()` raises TypeError on it -/
  | bag (entries : List (String × Value))

/-- The raw argument bag of an invocation. -/
abbrev ArgBag := List (String × Value)

/-- Lookup `arguments.get(k)` / `k in arguments`: first binding of `k`, if any. -/
def getArg (args : ArgBag) (k : String) : Option Value :=
  (List.find? (fun p => p.1 == k) args).map Prod.snd

/-- Collapses an explicit `None` binding to an absent one, matching the
source's `x is not None` guards (the fields start out as `None` and are
only overwritten when the key is present). -/
def argOrNone (args : ArgBag) (k : String) : Option Value :=
  match getArg args k with
  | some .vNone => none
  | o => o

/-- Python `float(v)`: `some` of the numeric value when conversion
succeeds, `none` when it raises TypeError/ValueError. -/
def pyFloat : Value → Option ℚ
  | .num q => some q
  | .str _ => none
  | .vNone => none
  | .bag _ => none

/-- Python `int(x)` on a float: truncation toward zero. -/
def pyTrunc (q : ℚ) : ℤ := Int.tdiv q.num (q.den : ℤ)

/-- Python `int(v)` on a raw value: `some` when conversion succeeds. -/
def pyIntV : Value → Option ℤ
  | .num q => some (pyTrunc q)
  | _ => none

/-- Python truthiness test `not x` (we only need the falsy cases the
source can meet): `None`, the empty string, `0`, and the empty dict are
falsy. -/
def isFalsy : Value → Bool
  | .num q => q == 0
  | .str s => s.data.isEmpty
  | .vNone => true
  | .bag l => l.isEmpty

/-- The text `f"{v}"` interpolates for a value.  Only the string case is
used by the claims; the other cases are schematic stand-ins. -/
def pyStr : Value → String
  | .str s => s
  | .num q => toString q
  | .vNone => "None"
  | .bag _ => "<dict>"

/-! ### Path helpers (POSIX, as used via `os.path` on the input path) -/

/-- Index of the last occurrence of `c` in `l`, if any. -/
def lastIdxAux (c : Char) : List Char → Nat → Option Nat → Option Nat
  | [], _, acc => acc
  | x :: xs, i, acc => lastIdxAux c xs (i + 1) (if x = c then some i else acc)

/-- Index of the last occurrence of `c` in `l`, if any. -/
def lastIdx (c : Char) (l : List Char) : Option Nat := lastIdxAux c l 0 none

/-- Python `os.path.basename`: everything after the last `/`. -/
def basename (p : String) : String :=
  match lastIdx '/' p.data with
  | none => p
  | some i => ⟨p.data.drop (i + 1)⟩

/-- Python `os.path.dirname`: everything up to the last `/`, with trailing
slashes stripped unless the head is all slashes. -/
def dirname (p : String) : String :=
  match lastIdx '/' p.data with
  | none => ""
  | some i =>
    let head := p.data.take (i + 1)
    if head.all (· = '/') then ⟨head⟩
    else ⟨(head.reverse.dropWhile (· = '/')).reverse⟩

/-- Python `os.path.splitext` on a basename (no slashes): split off the
extension at the last dot, unless every character before that dot is a
dot (so dotfiles such as `.bashrc` have no extension). -/
def splitext (s : String) : String × String :=
  match lastIdx '.' s.data with
  | none => (s, "")
  | some d =>
    if (s.data.take d).all (· = '.') then (s, "")
    else (⟨s.data.take d⟩, ⟨s.data.drop d⟩)

/-- Python `os.path.join` for a single component. -/
def pathJoin (a b : String) : String :=
  if b.startsWith "/" then b
  else if a == "" || a.endsWith "/" then a ++ b
  else a ++ "/" ++ b

/-- Python `s.lower()` (ASCII suffices here). -/
def pyLower (s : String) : String := ⟨s.data.map Char.toLower⟩

/-- Python `s.strip('.')`: remove leading and trailing dots. -/
def stripDots (s : String) : String :=
  ⟨((s.data.dropWhile (· = '.')).reverse.dropWhile (· = '.')).reverse⟩

/-! ### The hue normalization loop of `modify_colors` -/

/-- Loop `while hue_shift_float < -360.0: hue_shift_float += 360.0`. -/
def hueWrapUp (q : ℚ) : ℚ :=
  if h : q < -360 then hueWrapUp (q + 360) else q
termination_by (⌈-q⌉).toNat
decreasing_by
  have h1 : (360 : ℤ) < ⌈-q⌉ := by
    rw [Int.lt_ceil]; push_cast; linarith
  have h2 : ⌈-(q + 360)⌉ = ⌈-q⌉ - 360 := by
    have e : -(q + 360) = -q + ((-360 : ℤ) : ℚ) := by push_cast; ring
    rw [e, Int.ceil_add_int]; omega
  omega

/-- Loop `while hue_shift_float > 360.0: hue_shift_float -= 360.0`. -/
def hueWrapDown (q : ℚ) : ℚ :=
  if h : q > 360 then hueWrapDown (q - 360) else q
termination_by (⌈q⌉).toNat
decreasing_by
  have h1 : (360 : ℤ) < ⌈q⌉ := by
    rw [Int.lt_ceil]; push_cast; linarith
  have h2 : ⌈q - 360⌉ = ⌈q⌉ - 360 := by
    have e : q - 360 = q + ((-360 : ℤ) : ℚ) := by push_cast; ring
    rw [e, Int.ceil_add_int]; omega
  omega

/-! ### Per-parameter normalizers (one per `try` block of the source) -/

/-- Threshold handling of the `binarize_image` branch (source lines
96-113): default `0.5`, coerce with `float`, reset to the default when
out of `[0, 1]` or on a conversion error. -/
def coerceThreshold (v? : Option Value) : ℚ :=
  match v? with
  | none => (1/2 : ℚ)
  | some v =>
    match pyFloat v with
    | some q => if q < 0 ∨ q > 1 then (1/2 : ℚ) else q
    | none => (1/2 : ℚ)

/-- Quality handling of the `convert_image_format` branch (source lines
153-164): default `85`, coerce with `int`, clamp into `[1, 100]`, reset
to the default on a conversion error. -/
def qualityNormalize (v? : Option Value) : ℤ :=
  match v? with
  | none => 85
  | some v =>
    match pyIntV v with
    | some n => if n < 1 then 1 else if n > 100 then 100 else n
    | none => 85

/-- Radius/sigma handling of the `blur_image` branch (source lines
292-307): a single `try` block, so a conversion error on either value
resets both to their defaults `(0.0, 3.0)`; a negative radius is clamped
to `0.0` while a negative sigma is reset to the default `3.0`. -/
def blurNormalize (r? s? : Option Value) : ℚ × ℚ :=
  let rq? := match r? with | none => some (0 : ℚ) | some v => pyFloat v
  let sq? := match s? with | none => some (3 : ℚ) | some v => pyFloat v
  match rq?, sq? with
  | some rq, some sq => (if rq < 0 then (0 : ℚ) else rq, if sq < 0 then (3 : ℚ) else sq)
  | _, _ => ((0 : ℚ), (3 : ℚ))

/-- Hue-shift handling of the `modify_colors` branch (source lines
408-417): default `0.0`, coerce with `float`, wrap into `[-360, 360]`
by the two `while` loops, reset to the default on a conversion error. -/
def hueShiftNormalize (v? : Option Value) : ℚ :=
  match v? with
  | none => (0 : ℚ)
  | some v =>
    match pyFloat v with
    | some q => hueWrapDown (hueWrapUp q)
    | none => (0 : ℚ)

/-- Brightness handling of the `modify_colors` branch (source lines
420-430): default `100.0`, clamp into `[0, 200]`, reset to the default
on a conversion error. -/
def brightnessNormalize (v? : Option Value) : ℚ :=
  match v? with
  | none => (100 : ℚ)
  | some v =>
    match pyFloat v with
    | some q => if q < 0 then (0 : ℚ) else if q > 200 then (200 : ℚ) else q
    | none => (100 : ℚ)

/-- Saturation handling of the `modify_colors` branch (source lines
433-443): same policy as brightness. -/
def saturationNormalize (v? : Option Value) : ℚ :=
  match v? with
  | none => (100 : ℚ)
  | some v =>
    match pyFloat v with
    | some q => if q < 0 then (0 : ℚ) else if q > 200 then (200 : ℚ) else q
    | none => (100 : ℚ)

/-! ### Resize parameter normalization -/

/-- The two failure exits of the resize `try` block. -/
inductive ResizeError where
  /-- `"Error: No resize parameters specified"` (source line 232) -/
  | noParams
  /-- `"Error: Invalid resize parameters - ..."` (source line 235) -/
  | invalid
deriving DecidableEq

/-- The normalized resize parameters (`scale_float`, `width_float`,
`height_float` after the `try` block). -/
structure ResizeParams where
  scale? : Option ℚ
  width? : Option ℚ
  height? : Option ℚ
deriving DecidableEq

/-- One dimension (`width` or `height`) inside the resize `try` block
(source lines 213-227): absent stays unset, a non-positive numeric value
is discarded (treated as unset), and a failed `float` coercion aborts
the whole block with the invalid-parameters error. -/
def dimNorm (v? : Option Value) : Except ResizeError (Option ℚ) :=
  match v? with
  | none => .ok none
  | some v =>
    match pyFloat v with
    | some q => .ok (if q ≤ 0 then none else some q)
    | none => .error .invalid

/-- The resize `try` block (source lines 200-235): a present `scale`
wins and is reset to `1.0` when non-positive; otherwise non-positive
`width`/`height` are discarded (treated as unset), and if nothing
remains the no-parameters error is raised.  Coercions run sequentially
and the first failure aborts with the invalid-parameters error. -/
def resizeNormalize (w? h? s? : Option Value) : Except ResizeError ResizeParams :=
  match s? with
  | some sv =>
    match pyFloat sv with
    | some sq => .ok ⟨some (if sq ≤ 0 then 1 else sq), none, none⟩
    | none => .error .invalid
  | none =>
    match dimNorm w? with
    | .error e => .error e
    | .ok wq? =>
      match dimNorm h? with
      | .error e => .error e
      | .ok hq? =>
        if wq? = none ∧ hq? = none then .error .noParams
        else .ok ⟨none, wq?, hq?⟩

/-- The `img.resize` invocation(s) performed for normalized parameters
(source lines 244-268); `none` when no resize call happens.  `ow`/`oh`
are the original dimensions reported by the engine. -/
def resizeCall (ow oh : ℕ) (p : ResizeParams) : Option (ℤ × ℤ) :=
  match p.scale? with
  | some s => some (pyTrunc ((ow : ℚ) * s), pyTrunc ((oh : ℚ) * s))
  | none =>
    match p.width?, p.height? with
    | some w, some h => some (pyTrunc w, pyTrunc h)
    | some w, none => some (pyTrunc w, pyTrunc (w * ((oh : ℚ) / (ow : ℚ))))
    | none, some h => some (pyTrunc (h * ((ow : ℚ) / (oh : ℚ))), pyTrunc h)
    | none, none => none

/-! ### Engine abstraction and dispatch -/

/-- One delegated call into the Wand engine. -/
inductive EngineCall where
  /-- `img.type = 'grayscale'` -/
  | setGray
  /-- `img.threshold(q)` -/
  | threshold (q : ℚ)
  /-- `img.modulate(brightness, saturation, hue)` -/
  | modulate (b s h : ℚ)
  /-- `img.blur(radius, sigma)` -/
  | blur (r s : ℚ)
  /-- `img.resize(w, h)` -/
  | resize (w h : ℤ)
  /-- `img.compression_quality = q` -/
  | setQuality (q : ℤ)
  /-- `img.save(filename=path)` -/
  | save (path : String)
deriving DecidableEq

/-- The observable outcome of one invocation: the returned text blocks
and the trace of engine calls. -/
structure Outcome where
  content : List String
  calls : List EngineCall
deriving DecidableEq

/-- The environment abstracting the filesystem and the engine. -/
structure Env where
  /-- `os.path.exists` on the raw path value -/
  fsExists : Value → Bool
  /-- `img.width` for the image at a path -/
  width : String → ℕ
  /-- `img.height` for the image at a path -/
  height : String → ℕ
  /-- the metadata text built by the `get_image_info` branch -/
  info : String → String

/-- The unknown-tool error text (source line 470); a `None` name
interpolates as `"None"`. -/
def unknownToolMsg (name : Option String) : String :=
  "Error: Unknown tool name '" ++ (match name with | some s => s | none => "None") ++
    "'. Available tools are: binarize_image, blur_image, convert_image_format, get_image_info, grayscale_image, modify_colors, resize_image"

/-- The `binarize_image` branch (source lines 95-127). -/
def binarizeRun (args : ArgBag) (outputDir fileName fileExt : String) : Outcome :=
  let t := coerceThreshold (argOrNone args "threshold")
  let outputPath := pathJoin outputDir (fileName ++ "_binarized" ++ fileExt)
  ⟨["Image binarized successfully. Output saved to: " ++ outputPath],
   [.setGray, .threshold t, .save outputPath]⟩

/-- The `convert_image_format` branch (source lines 130-178).  A falsy
`output_format` is a surfaced validation error; a truthy non-string one
raises AttributeError on `.lower()`, caught by the outer handler. -/
def convertRun (args : ArgBag) (outputDir fileName : String) : Outcome :=
  match getArg args "output_format" with
  | none => ⟨["Error: No output format specified"], []⟩
  | some v =>
    if isFalsy v then ⟨["Error: No output format specified"], []⟩
    else
      match v with
      | .str s =>
        let fmt := stripDots (pyLower s)
        let q := qualityNormalize (argOrNone args "quality")
        let outputPath := pathJoin outputDir (fileName ++ "." ++ fmt)
        ⟨["Image format converted successfully. Output saved to: " ++ outputPath],
         [.setQuality q, .save outputPath]⟩
      | _ => ⟨["Error: <exception>"], []⟩

/-- The `resize_image` branch (source lines 181-274). -/
def resizeRun (env : Env) (args : ArgBag) (p outputDir fileName fileExt : String) : Outcome :=
  match resizeNormalize (argOrNone args "width") (argOrNone args "height")
      (argOrNone args "scale") with
  | .error .noParams => ⟨["Error: No resize parameters specified"], []⟩
  | .error .invalid => ⟨["Error: Invalid resize parameters"], []⟩
  | .ok prm =>
    let outputPath := pathJoin outputDir (fileName ++ "_resized" ++ fileExt)
    let calls :=
      match resizeCall (env.width p) (env.height p) prm with
      | some (w, h) => [EngineCall.resize w h]
      | none => []
    ⟨["Image resized successfully. Output saved to: " ++ outputPath],
     calls ++ [.save outputPath]⟩

/-- The `blur_image` branch (source lines 277-319). -/
def blurRun (args : ArgBag) (outputDir fileName fileExt : String) : Outcome :=
  let rs := blurNormalize (argOrNone args "radius") (argOrNone args "sigma")
  let outputPath := pathJoin outputDir (fileName ++ "_blurred" ++ fileExt)
  ⟨["Image blurred successfully. Output saved to: " ++ outputPath],
   [.blur rs.1 rs.2, .save outputPath]⟩

/-- The `grayscale_image` branch (source lines 322-333). -/
def grayscaleRun (outputDir fileName fileExt : String) : Outcome :=
  let outputPath := pathJoin outputDir (fileName ++ "_grayscale" ++ fileExt)
  ⟨["Image converted to grayscale successfully. Output saved to: " ++ outputPath],
   [.setGray, .save outputPath]⟩

/-- The `modify_colors` branch (source lines 387-466). -/
def modifyRun (args : ArgBag) (outputDir fileName fileExt : String) : Outcome :=
  let hue := hueShiftNormalize (argOrNone args "hue_shift")
  let b := brightnessNormalize (argOrNone args "brightness")
  let s := saturationNormalize (argOrNone args "saturation")
  let outputPath := pathJoin outputDir (fileName ++ "_color_modified" ++ fileExt)
  ⟨["Image colors modified successfully. Output saved to: " ++ outputPath],
   [.modulate b s (100 + hue * 100 / 360), .save outputPath]⟩

/-- The operation dispatch (the `if`/`elif` chain over the flags set
from `name`, source lines 46-70 and 95-472), entered once the image
path has been validated; `p` is the validated path string. -/
def dispatch (env : Env) (name : Option String) (args : ArgBag) (p : String) : Outcome :=
  let se := splitext (basename p)
  let outputDir := dirname p
  if name = some "binarize_image" then binarizeRun args outputDir se.1 se.2
  else if name = some "convert_image_format" then convertRun args outputDir se.1
  else if name = some "resize_image" then resizeRun env args p outputDir se.1 se.2
  else if name = some "blur_image" then blurRun args outputDir se.1 se.2
  else if name = some "grayscale_image" then grayscaleRun outputDir se.1 se.2
  else if name = some "get_image_info" then ⟨[env.info p], []⟩
  else if name = some "modify_colors" then modifyRun args outputDir se.1 se.2
  else ⟨[unknownToolMsg name], []⟩

/-- The whole `process_image` handler: image-path extraction and the
two path validations (source lines 72-88) followed by dispatch. -/
def processImage (env : Env) (name : Option String) (args : ArgBag) : Outcome :=
  match getArg args "image_path" with
  | none => ⟨["Error: No image path provided"], []⟩
  | some v =>
    if isFalsy v then ⟨["Error: No image path provided"], []⟩
    else if env.fsExists v then dispatch env name args (pyStr v)
    else ⟨["Error: Image file not found at " ++ pyStr v], []⟩

/-! ### Helper lemmas -/

theorem hueWrapUp_lb (q : ℚ) : -360 ≤ hueWrapUp q := by
  induction q using hueWrapUp.induct with
  | case1 q h ih => rw [hueWrapUp, dif_pos h]; exact ih
  | case2 q h => rw [hueWrapUp, dif_neg h]; linarith

theorem hueWrapUp_le_max (q : ℚ) : hueWrapUp q ≤ max q 0 := by
  induction q using hueWrapUp.induct with
  | case1 q h ih =>
    rw [hueWrapUp, dif_pos h]
    have hle : max (q + 360) 0 ≤ max q 0 := by
      have : q + 360 < 0 := by linarith
      simp only [le_max_iff, max_le_iff]
      right; constructor <;> linarith
    linarith
  | case2 q h => rw [hueWrapUp, dif_neg h]; exact le_max_left _ _

theorem hueWrapUp_congr (q : ℚ) : ∃ k : ℤ, hueWrapUp q = q + k * 360 := by
  induction q using hueWrapUp.induct with
  | case1 q h ih =>
    obtain ⟨k, hk⟩ := ih
    refine ⟨k + 1, ?_⟩
    rw [hueWrapUp, dif_pos h, hk]
    push_cast; ring
  | case2 q h => exact ⟨0, by rw [hueWrapUp, dif_neg h]; ring⟩

theorem hueWrapDown_ub (q : ℚ) : hueWrapDown q ≤ 360 := by
  induction q using hueWrapDown.induct with
  | case1 q h ih => rw [hueWrapDown, dif_pos h]; exact ih
  | case2 q h => rw [hueWrapDown, dif_neg h]; linarith

theorem hueWrapDown_ge_min (q : ℚ) : min q 0 ≤ hueWrapDown q := by
  induction q using hueWrapDown.induct with
  | case1 q h ih =>
    rw [hueWrapDown, dif_pos h]
    have hle : min q 0 ≤ min (q - 360) 0 := by
      have : 0 < q - 360 := by linarith
      simp only [le_min_iff, min_le_iff]
      constructor
      · right; linarith
      · right; linarith
    linarith
  | case2 q h => rw [hueWrapDown, dif_neg h]; exact min_le_left _ _

theorem hueWrapDown_congr (q : ℚ) : ∃ k : ℤ, hueWrapDown q = q + k * 360 := by
  induction q using hueWrapDown.induct with
  | case1 q h ih =>
    obtain ⟨k, hk⟩ := ih
    refine ⟨k - 1, ?_⟩
    rw [hueWrapDown, dif_pos h, hk]
    push_cast; ring
  | case2 q h => exact ⟨0, by rw [hueWrapDown, dif_neg h]; ring⟩

theorem pyTrunc_eq_floor (q : ℚ) (h : 0 ≤ q) : pyTrunc q = ⌊q⌋ := by
  have hnum : 0 ≤ q.num := Rat.num_nonneg.mpr h
  rw [pyTrunc, Rat.floor_def, Int.tdiv_eq_ediv hnum (by positivity)]

/-!
### C2: hue_shift normalization

The claim asserts termination, a result in `[-360, 360]`, and congruence
to the input modulo 720.  The loop adjusts by 360 per step, so the
result is congruent modulo 360, not 720 (e.g. input 400 wraps to 40,
and 400 - 40 = 360 is not a multiple of 720).
-/

/-- C2 (counterexample): at `hue_shift = 400` the normalization loop
yields 40, and 40 is not congruent to 400 modulo 720 — refuting the
claimed `result ≡ input (mod 720)` property. -/
theorem hueShift_400_not_congruent_mod_720 :
    hueShiftNormalize (some (.num 400)) = 40
  ∧ ∀ k : ℤ, (400 : ℚ) - hueShiftNormalize (some (.num 400)) ≠ k * 720 := by
  have h1 : hueWrapUp (400 : ℚ) = 400 := by rw [hueWrapUp]; norm_num
  have h2 : hueWrapDown (400 : ℚ) = hueWrapDown 40 := by rw [hueWrapDown]; norm_num
  have h3 : hueWrapDown (40 : ℚ) = 40 := by rw [hueWrapDown]; norm_num
  have hval : hueShiftNormalize (some (.num 400)) = 40 := by
    simp only [hueShiftNormalize, pyFloat, h1, h2, h3]
  refine ⟨hval, ?_⟩
  intro k hk
  rw [hval] at hk
  have h4 : ((720 * k : ℤ) : ℚ) = ((360 : ℤ) : ℚ) := by push_cast; linarith
  have h5 : (720 * k : ℤ) = 360 := by exact_mod_cast h4
  omega

/-- C2 (amended): for every numeric `hue_shift` input, the `modify_colors`
wrap loop terminates (the model's recursion is well-founded, i.e. the
function is total), the result lies in `[-360, 360]`, and the result is
congruent to the input modulo **360**. -/
theorem hueShift_normalization_terminates_in_range_mod_360 (q : ℚ) :
    hueShiftNormalize (some (.num q)) = hueWrapDown (hueWrapUp q)
  ∧ -360 ≤ hueShiftNormalize (some (.num q))
  ∧ hueShiftNormalize (some (.num q)) ≤ 360
  ∧ ∃ k : ℤ, hueShiftNormalize (some (.num q)) = q + k * 360 := by
  have heq : hueShiftNormalize (some (.num q)) = hueWrapDown (hueWrapUp q) := by
    simp only [hueShiftNormalize, pyFloat]
  refine ⟨heq, ?_, ?_, ?_⟩
  · rw [heq]
    have h1 := hueWrapUp_lb q
    have h2 := hueWrapDown_ge_min (hueWrapUp q)
    have h3 : (-360 : ℚ) ≤ min (hueWrapUp q) 0 := by
      simp only [le_min_iff]
      exact ⟨h1, by norm_num⟩
    linarith
  · rw [heq]; exact hueWrapDown_ub _
  · rw [heq]
    obtain ⟨k1, hk1⟩ := hueWrapUp_congr q
    obtain ⟨k2, hk2⟩ := hueWrapDown_congr (hueWrapUp q)
    refine ⟨k1 + k2, ?_⟩
    rw [hk2, hk1]
    push_cast; ring

/-- A concrete environment for counterexamples: every path exists and
every image is 3×2 pixels. -/
def envC : Env := ⟨fun _ => true, fun _ => 3, fun _ => 2, fun _ => ""⟩

theorem getArg_append_single (args : ArgBag) (k k' : String) (v : Value)
    (h : (k' == k) = false) :
    getArg (args ++ [(k', v)]) k = getArg args k := by
  unfold getArg
  rw [List.find?_append]
  cases hfind : List.find? (fun p => p.1 == k) args with
  | some x => simp [hfind]
  | none => simp [hfind, List.find?, h]

theorem argOrNone_append_single (args : ArgBag) (k k' : String) (v : Value)
    (h : (k' == k) = false) :
    argOrNone (args ++ [(k', v)]) k = argOrNone args k := by
  unfold argOrNone
  rw [getArg_append_single args k k' v h]

theorem dispatch_append_argbag (env : Env) (name : Option String) (args : ArgBag)
    (sub : List (String × Value)) (p : String) :
    dispatch env name (args ++ [("arguments", .bag sub)]) p = dispatch env name args p := by
  simp only [dispatch, binarizeRun, convertRun, resizeRun, blurRun, grayscaleRun, modifyRun,
    argOrNone_append_single args "threshold" "arguments" (.bag sub) (by decide),
    argOrNone_append_single args "quality" "arguments" (.bag sub) (by decide),
    getArg_append_single args "output_format" "arguments" (.bag sub) (by decide),
    argOrNone_append_single args "width" "arguments" (.bag sub) (by decide),
    argOrNone_append_single args "height" "arguments" (.bag sub) (by decide),
    argOrNone_append_single args "scale" "arguments" (.bag sub) (by decide),
    argOrNone_append_single args "radius" "arguments" (.bag sub) (by decide),
    argOrNone_append_single args "sigma" "arguments" (.bag sub) (by decide),
    argOrNone_append_single args "hue_shift" "arguments" (.bag sub) (by decide),
    argOrNone_append_single args "brightness" "arguments" (.bag sub) (by decide),
    argOrNone_append_single args "saturation" "arguments" (.bag sub) (by decide)]

/-!
### C1: argument sources and precedence

The claim asserts three extraction sources (nested sub-bag, JSON string
embedded in the path argument, direct field) with nested-first
precedence.  The handler reads every parameter only directly from the
argument bag under its canonical key: a sub-bag is never consulted (and
`json` is never called on the path argument), so a value supplied only
inside a sub-bag is ignored and the declared default is used instead.
-/

/-- C1 (counterexample): binarize with the threshold 0.9 supplied only
nested inside a sub-bag.  The claimed nested-source precedence predicts
a threshold of 0.9; the code ignores the sub-bag and passes the default
0.5 to the engine. -/
theorem nested_threshold_ignored :
    (processImage envC (some "binarize_image")
      [("image_path", .str "/a/img.png"),
       ("arguments", .bag [("threshold", .num (9/10))])]).calls
      = [.setGray, .threshold (1/2 : ℚ), .save "/a/img_binarized.png"]
  ∧ (1/2 : ℚ) ≠ 9/10 := by
  constructor
  · with_unfolding_all rfl
  · norm_num

/-- C1 (amended): every operation reads each parameter only from its
canonical key directly on the argument bag (falling back to the declared
default), so adding a legacy-style sub-bag entry under a secondary key
never changes the outcome of any invocation. -/
theorem params_read_only_from_direct_fields (env : Env) (name : Option String)
    (args : ArgBag) (sub : List (String × Value)) :
    processImage env name (args ++ [("arguments", .bag sub)])
      = processImage env name args := by
  have h1 : getArg (args ++ [("arguments", .bag sub)]) "image_path"
      = getArg args "image_path" :=
    getArg_append_single args "image_path" "arguments" (.bag sub) (by decide)
  unfold processImage
  rw [h1]
  cases getArg args "image_path" with
  | none => rfl
  | some v =>
    by_cases hf : isFalsy v
    · simp [hf]
    · by_cases he : env.fsExists v
      · simp [hf, he, dispatch_append_argbag]
      · simp [hf, he]

/-!
### C3: coercion-failure recovery

The claim asserts that a non-numeric parameter is always replaced by the
declared default and never surfaced as an error.  That is true for
binarize, blur, convert and modify_colors, but the resize branch's
`except` clause returns an `"Error: Invalid resize parameters - ..."`
response to the caller (source lines 233-235).
-/

/-- C3 (counterexample): resize with a non-numeric `scale` surfaces an
invalid-parameters error response to the caller instead of substituting
a default. -/
theorem resize_coercion_error_surfaced :
    processImage envC (some "resize_image")
      [("image_path", .str "/a/img.png"), ("scale", .str "abc")]
      = ⟨["Error: Invalid resize parameters"], []⟩ := by
  with_unfolding_all rfl

/-- C3 (amended): a coercion failure (a value on which the numeric
conversion raises) is recovered locally with the declared defaults in
the binarize, convert, blur and modify_colors branches, but in the
resize branch it aborts the invocation with the invalid-parameters
error, which is surfaced to the caller. -/
theorem coercion_failure_defaults_except_resize (v : Value) (h : pyFloat v = none) :
    coerceThreshold (some v) = 1/2
  ∧ qualityNormalize (some v) = 85
  ∧ (∀ s?, blurNormalize (some v) s? = (0, 3))
  ∧ (∀ r?, blurNormalize r? (some v) = (0, 3))
  ∧ hueShiftNormalize (some v) = 0
  ∧ brightnessNormalize (some v) = 100
  ∧ saturationNormalize (some v) = 100
  ∧ (∀ w? h?, resizeNormalize w? h? (some v) = .error .invalid)
  ∧ (∀ h?, resizeNormalize (some v) h? none = .error .invalid) := by
  have hi : pyIntV v = none := by
    cases v with
    | num q => simp [pyFloat] at h
    | str s => rfl
    | vNone => rfl
    | bag l => rfl
  refine ⟨?_, ?_, ?_, ?_, ?_, ?_, ?_, ?_, ?_⟩
  · simp [coerceThreshold, h]
  · simp [qualityNormalize, hi]
  · intro s?; simp [blurNormalize, h]
  · intro r?
    cases r? with
    | none => simp [blurNormalize, h]
    | some rv =>
      cases hrv : pyFloat rv with
      | none => simp [blurNormalize, h, hrv]
      | some rq => simp [blurNormalize, h, hrv]
  · simp [hueShiftNormalize, h]
  · simp [brightnessNormalize, h]
  · simp [saturationNormalize, h]
  · intro w? h?
    simp [resizeNormalize, h]
  · intro h?
    simp [resizeNormalize, dimNorm, h]

/-- Closed witness for the amended C3 theorem at the non-numeric value
`"abc"`. -/
theorem coercion_failure_defaults_witness :
    coerceThreshold (some (.str "abc")) = 1/2 :=
  (coercion_failure_defaults_except_resize (.str "abc") rfl).1

/-!
### C4: aspect-ratio height for width-only resize

The claim asserts `height = round(width * original_height /
original_width)`.  The source computes `int(width_float * aspect_ratio)`
and Python's `int()` truncates toward zero (floor for these positive
operands), so e.g. a 3×2 image resized to width 4 gets height
`int(8/3) = 2`, while `round(8/3) = 3`.
-/

/-- C4 (counterexample): on a 3×2 image, resize with only `width = 4`
passes `resize(4, 2)` to the engine, but the claimed rounding formula
gives `round(4·2/3) = 3`. -/
theorem resize_width_only_truncates_not_rounds :
    (processImage envC (some "resize_image")
      [("image_path", .str "/a/img.png"), ("width", .num 4)]).calls
      = [.resize 4 2, .save "/a/img_resized.png"]
  ∧ (2 : ℤ) ≠ round ((4 : ℚ) * 2 / 3) := by
  refine ⟨by with_unfolding_all rfl, ?_⟩
  have : round ((4 : ℚ) * 2 / 3) = 3 := by
    rw [round_eq]
    norm_num
  omega

/-- C4 (amended): with only a positive numeric `width` given, the
resize call passed to the engine uses the truncation of
`width · (original_height / original_width)` as its height, which for
these nonnegative operands equals the floor of
`width · original_height / original_width` (not its rounding). -/
theorem resize_width_only_height_is_floor (ow oh : ℕ) (w : ℚ)
    (how : 0 < ow) (hw : 0 < w) :
    resizeCall ow oh ⟨none, some w, none⟩
      = some (pyTrunc w, pyTrunc (w * ((oh : ℚ) / (ow : ℚ))))
  ∧ pyTrunc (w * ((oh : ℚ) / (ow : ℚ))) = ⌊w * (oh : ℚ) / (ow : ℚ)⌋ := by
  constructor
  · rfl
  · rw [mul_div_assoc]
    exact pyTrunc_eq_floor _ (by positivity)

/-- Closed witness for the amended C4 theorem on a 3×2 image with
width 4. -/
theorem resize_width_only_height_is_floor_witness :
    resizeCall 3 2 ⟨none, some 4, none⟩
      = some (pyTrunc 4, pyTrunc (4 * (((2 : ℕ) : ℚ) / ((3 : ℕ) : ℚ)))) :=
  (resize_width_only_height_is_floor 3 2 4 (by norm_num) (by norm_num)).1

/-! ### C5: range invariants of normalization -/

theorem hueWrap_range (q : ℚ) :
    -360 ≤ hueWrapDown (hueWrapUp q) ∧ hueWrapDown (hueWrapUp q) ≤ 360 := by
  refine ⟨?_, hueWrapDown_ub _⟩
  have h1 := hueWrapUp_lb q
  have h2 := hueWrapDown_ge_min (hueWrapUp q)
  have h3 : (-360 : ℚ) ≤ min (hueWrapUp q) 0 := le_min h1 (by norm_num)
  linarith

theorem dimNorm_pos (v? : Option Value) (o : Option ℚ) (h : dimNorm v? = .ok o) :
    ∀ q, o = some q → 0 < q := by
  cases v? with
  | none =>
    simp [dimNorm] at h
    intro q hq
    rw [← h] at hq
    simp at hq
  | some v =>
    cases hv : pyFloat v with
    | none => simp [dimNorm, hv] at h
    | some q' =>
      simp [dimNorm, hv] at h
      intro q hq
      rw [← h] at hq
      split at hq
      · simp at hq
      · rename_i hq'
        simp at hq
        subst hq
        linarith

theorem dimNorm_nonpos_eq_absent (q : ℚ) (h : q ≤ 0) :
    dimNorm (some (.num q)) = dimNorm none := by
  simp [dimNorm, pyFloat, if_pos h]

theorem dimNorm_num_ne_invalid (o : Option ℚ) :
    dimNorm (o.map (fun q => .num q)) ≠ .error .invalid := by
  cases o with
  | none => simp [dimNorm]
  | some q => simp [dimNorm, pyFloat]

/-- C5: normalization never emits a value outside the declared range of
its parameter, and out-of-range numeric inputs are clamped (quality,
brightness, saturation, radius), wrapped (hue_shift), or reset to the
default (threshold, sigma, scale) or to the unset state (width, height)
— never answered with the surfaced invalid-parameters error, which
numeric inputs can never trigger. -/
theorem normalization_emits_only_in_range_values :
    (∀ v?, 0 ≤ coerceThreshold v? ∧ coerceThreshold v? ≤ 1)
  ∧ (∀ v?, 1 ≤ qualityNormalize v? ∧ qualityNormalize v? ≤ 100)
  ∧ (∀ r? s?, 0 ≤ (blurNormalize r? s?).1 ∧ 0 ≤ (blurNormalize r? s?).2)
  ∧ (∀ v?, -360 ≤ hueShiftNormalize v? ∧ hueShiftNormalize v? ≤ 360)
  ∧ (∀ v?, 0 ≤ brightnessNormalize v? ∧ brightnessNormalize v? ≤ 200)
  ∧ (∀ v?, 0 ≤ saturationNormalize v? ∧ saturationNormalize v? ≤ 200)
  ∧ (∀ w? h? s? prm, resizeNormalize w? h? s? = .ok prm →
        (∀ q, prm.scale? = some q → 0 < q)
      ∧ (∀ q, prm.width? = some q → 0 < q)
      ∧ (∀ q, prm.height? = some q → 0 < q))
  ∧ (∀ (q : ℚ) h? s?, q ≤ 0 →
        resizeNormalize (some (.num q)) h? s? = resizeNormalize none h? s?)
  ∧ (∀ (q : ℚ) w? s?, q ≤ 0 →
        resizeNormalize w? (some (.num q)) s? = resizeNormalize w? none s?)
  ∧ (∀ (q : ℚ) w? h?, q ≤ 0 →
        resizeNormalize w? h? (some (.num q)) = .ok ⟨some 1, none, none⟩)
  ∧ (∀ (w? h? s? : Option ℚ),
        resizeNormalize (w?.map (fun q => .num q)) (h?.map (fun q => .num q))
          (s?.map (fun q => .num q)) ≠ .error .invalid) := by
  refine ⟨?_, ?_, ?_, ?_, ?_, ?_, ?_, ?_, ?_, ?_, ?_⟩
  · intro v?
    cases v? with
    | none => norm_num [coerceThreshold]
    | some v =>
      cases hv : pyFloat v with
      | none => norm_num [coerceThreshold, hv]
      | some q =>
        simp only [coerceThreshold, hv]
        split_ifs with hq
        · norm_num
        · push_neg at hq
          exact ⟨hq.1, hq.2⟩
  · intro v?
    cases v? with
    | none => norm_num [qualityNormalize]
    | some v =>
      cases hv : pyIntV v with
      | none => norm_num [qualityNormalize, hv]
      | some n =>
        simp only [qualityNormalize, hv]
        split_ifs with h1 h2 <;> omega
  · intro r? s?
    have hr : ∀ rq? sq?, 0 ≤ (match rq?, sq? with
        | some rq, some sq =>
          ((if rq < 0 then (0 : ℚ) else rq, if sq < 0 then (3 : ℚ) else sq) : ℚ × ℚ)
        | _, _ => ((0 : ℚ), (3 : ℚ))).1 ∧ 0 ≤ (match rq?, sq? with
        | some rq, some sq =>
          ((if rq < 0 then (0 : ℚ) else rq, if sq < 0 then (3 : ℚ) else sq) : ℚ × ℚ)
        | _, _ => ((0 : ℚ), (3 : ℚ))).2 := by
      intro rq? sq?
      cases rq? with
      | none => cases sq? <;> norm_num
      | some rq =>
        cases sq? with
        | none => norm_num
        | some sq =>
          constructor
          · dsimp only; split_ifs <;> linarith
          · dsimp only; split_ifs <;> linarith
    exact hr _ _
  · intro v?
    cases v? with
    | none => norm_num [hueShiftNormalize]
    | some v =>
      cases hv : pyFloat v with
      | none => norm_num [hueShiftNormalize, hv]
      | some q =>
        simp only [hueShiftNormalize, hv]
        exact hueWrap_range q
  · intro v?
    cases v? with
    | none => norm_num [brightnessNormalize]
    | some v =>
      cases hv : pyFloat v with
      | none => norm_num [brightnessNormalize, hv]
      | some q =>
        simp only [brightnessNormalize, hv]
        split_ifs <;> constructor <;> linarith
  · intro v?
    cases v? with
    | none => norm_num [saturationNormalize]
    | some v =>
      cases hv : pyFloat v with
      | none => norm_num [saturationNormalize, hv]
      | some q =>
        simp only [saturationNormalize, hv]
        split_ifs <;> constructor <;> linarith
  · intro w? h? s? prm hok
    cases s? with
    | some sv =>
      cases hsv : pyFloat sv with
      | none => simp [resizeNormalize, hsv] at hok
      | some sq =>
        simp only [resizeNormalize, hsv, Except.ok.injEq] at hok
        subst hok
        refine ⟨?_, by simp, by simp⟩
        intro q hq
        simp only at hq
        rw [Option.some_inj] at hq
        subst hq
        split_ifs with h
        · norm_num
        · linarith
    | none =>
      cases hw : dimNorm w? with
      | error e => simp [resizeNormalize, hw] at hok
      | ok wq? =>
        cases hh : dimNorm h? with
        | error e => simp [resizeNormalize, hw, hh] at hok
        | ok hq? =>
          simp only [resizeNormalize, hw, hh] at hok
          split_ifs at hok with hcond
          rw [Except.ok.injEq] at hok
          rw [← hok]
          exact ⟨by simp, dimNorm_pos w? wq? hw, dimNorm_pos h? hq? hh⟩
  · intro q h? s? hq
    cases s? with
    | some sv => rfl
    | none =>
      simp only [resizeNormalize]
      rw [dimNorm_nonpos_eq_absent q hq]
  · intro q w? s? hq
    cases s? with
    | some sv => rfl
    | none =>
      simp only [resizeNormalize]
      rw [dimNorm_nonpos_eq_absent q hq]
  · intro q w? h? hq
    simp [resizeNormalize, pyFloat, if_pos hq]
  · intro w? h? s?
    cases s? with
    | some sq => simp [resizeNormalize, pyFloat]
    | none =>
      cases hw : dimNorm (w?.map (fun q => .num q)) with
      | error e =>
        exact absurd (by
          cases e
          · exact absurd hw (by
              cases w? with
              | none => simp [dimNorm]
              | some q => simp [dimNorm, pyFloat])
          · exact dimNorm_num_ne_invalid w? hw) (by simp)
      | ok wq? =>
        cases hh : dimNorm (h?.map (fun q => .num q)) with
        | error e =>
          cases e with
          | noParams =>
            exact absurd hh (by
              cases h? with
              | none => simp [dimNorm]
              | some q => simp [dimNorm, pyFloat])
          | invalid => exact absurd hh (dimNorm_num_ne_invalid h?)
        | ok hq? =>
          simp only [resizeNormalize, hw, hh]
          split_ifs <;> simp

/-- Closed witness for C5 at a concrete out-of-range input. -/
theorem normalization_in_range_witness :
    0 ≤ coerceThreshold (some (.num 5)) ∧ coerceThreshold (some (.num 5)) ≤ 1 :=
  normalization_emits_only_in_range_values.1 (some (.num 5))

/-! ### C6: the surfaced no-resize-parameters error -/

/-- A raw `width`/`height` input that resolves to "unset": absent, or
numeric and non-positive (discarded by the normalization). -/
def unusableDim (v? : Option Value) : Prop :=
  v? = none ∨ ∃ q : ℚ, q ≤ 0 ∧ v? = some (.num q)

theorem dimNorm_ok_none_iff (v? : Option Value) :
    dimNorm v? = .ok none ↔ unusableDim v? := by
  cases v? with
  | none => simp [dimNorm, unusableDim]
  | some v =>
    cases v with
    | num q =>
      constructor
      · intro h
        simp only [dimNorm, pyFloat] at h
        split at h
        · rename_i hq
          exact Or.inr ⟨q, hq, rfl⟩
        · simp at h
      · intro h
        rcases h with h | ⟨q', hq', hv⟩
        · simp at h
        · have hq : q = q' := by
            have hv' : Value.num q = Value.num q' := by injection hv
            injection hv'
          simp only [dimNorm, pyFloat]
          rw [hq, if_pos hq']
    | str s => simp [dimNorm, pyFloat, unusableDim]
    | vNone => simp [dimNorm, pyFloat, unusableDim]
    | bag l => simp [dimNorm, pyFloat, unusableDim]

theorem dimNorm_ne_noParams (v? : Option Value) : dimNorm v? ≠ .error .noParams := by
  cases v? with
  | none => simp [dimNorm]
  | some v =>
    cases hv : pyFloat v with
    | none => simp [dimNorm, hv]
    | some q =>
      simp only [dimNorm, hv]
      split_ifs <;> simp

/-- C6: the resize branch answers the `"Error: No resize parameters
specified"` validation error exactly when `scale` is absent and both
`width` and `height` are absent or numeric-non-positive, and in that
case the invocation performs no engine call at all (no default no-op
resize). -/
theorem resize_without_params_is_surfaced_error :
    (∀ w? h? s?, resizeNormalize w? h? s? = .error .noParams
       ↔ s? = none ∧ unusableDim w? ∧ unusableDim h?)
  ∧ (∀ env args v, getArg args "image_path" = some v → isFalsy v = false →
       env.fsExists v = true → argOrNone args "scale" = none →
       unusableDim (argOrNone args "width") →
       unusableDim (argOrNone args "height") →
       processImage env (some "resize_image") args
         = ⟨["Error: No resize parameters specified"], []⟩) := by
  constructor
  · intro w? h? s?
    cases s? with
    | some sv =>
      cases hsv : pyFloat sv with
      | none => simp [resizeNormalize, hsv]
      | some sq => simp [resizeNormalize, hsv]
    | none =>
      cases hw : dimNorm w? with
      | error e =>
        cases e with
        | noParams => exact absurd hw (dimNorm_ne_noParams w?)
        | invalid =>
          simp only [resizeNormalize, hw]
          constructor
          · intro h; simp at h
          · rintro ⟨-, hwu, -⟩
            rw [← dimNorm_ok_none_iff, hw] at hwu
            simp at hwu
      | ok wq? =>
        cases hh : dimNorm h? with
        | error e =>
          cases e with
          | noParams => exact absurd hh (dimNorm_ne_noParams h?)
          | invalid =>
            simp only [resizeNormalize, hw, hh]
            constructor
            · intro h; simp at h
            · rintro ⟨-, -, hhu⟩
              rw [← dimNorm_ok_none_iff, hh] at hhu
              simp at hhu
        | ok hq? =>
          have hwiff : wq? = none ↔ unusableDim w? := by
            rw [← dimNorm_ok_none_iff, hw]
            simp [eq_comm]
          have hhiff : hq? = none ↔ unusableDim h? := by
            rw [← dimNorm_ok_none_iff, hh]
            simp [eq_comm]
          simp only [resizeNormalize, hw, hh]
          split_ifs with hcond
          · exact iff_of_true rfl ⟨by trivial, hwiff.mp hcond.1, hhiff.mp hcond.2⟩
          · constructor
            · intro h; simp at h
            · rintro ⟨-, hwu, hhu⟩
              exact absurd ⟨hwiff.mpr hwu, hhiff.mpr hhu⟩ hcond
  · intro env args v hv hf he hs hwu hhu
    have hwn : dimNorm (argOrNone args "width") = .ok none :=
      (dimNorm_ok_none_iff _).mpr hwu
    have hhn : dimNorm (argOrNone args "height") = .ok none :=
      (dimNorm_ok_none_iff _).mpr hhu
    have hnorm : resizeNormalize (argOrNone args "width") (argOrNone args "height")
        (argOrNone args "scale") = .error .noParams := by
      rw [hs]
      simp [resizeNormalize, hwn, hhn]
    simp only [processImage, hv, hf, Bool.false_eq_true, if_false, he, if_true]
    simp [dispatch, resizeRun, hnorm]

/-- Closed witness for C6: resize with only a negative width errors. -/
theorem resize_without_params_witness :
    processImage envC (some "resize_image")
      [("image_path", .str "/a/img.png"), ("width", .num (-5))]
      = ⟨["Error: No resize parameters specified"], []⟩ :=
  resize_without_params_is_surfaced_error.2 envC
    [("image_path", .str "/a/img.png"), ("width", .num (-5))]
    (.str "/a/img.png") (by with_unfolding_all rfl) (by with_unfolding_all rfl)
    rfl (by with_unfolding_all rfl)
    (Or.inr ⟨-5, by norm_num, by with_unfolding_all rfl⟩)
    (Or.inl (by with_unfolding_all rfl))

/-!
### C7: blur's asymmetric negative-value policies
-/

/-- C7: in the blur branch a negative radius is clamped to `0.0` while a
negative sigma is reset to the declared default `3.0` (the same pair
`(0, 3)` that absent inputs produce), the documented asymmetry. -/
theorem blur_negative_radius_zero_sigma_default (r s : ℚ) (hr : r < 0) (hs : s < 0) :
    blurNormalize (some (.num r)) (some (.num s)) = (0, 3)
  ∧ blurNormalize none none = (0, 3) := by
  constructor
  · simp [blurNormalize, pyFloat, if_pos hr, if_pos hs]
  · simp [blurNormalize]

/-- Closed witness for C7 at radius `-1`, sigma `-2`. -/
theorem blur_negative_witness :
    blurNormalize (some (.num (-1))) (some (.num (-2))) = (0, 3)
  ∧ blurNormalize none none = (0, 3) :=
  blur_negative_radius_zero_sigma_default (-1) (-2) (by norm_num) (by norm_num)

/-!
### C8: format-string normalization in convert_image_format
-/

/-- C8: `output_format="JPG."` normalizes to `"jpg"` (lower-case, dots
stripped), and the converted file is saved as the input's stem with the
new `.jpg` extension in the input's directory, at the default quality
85. -/
theorem convert_JPG_dot_normalizes (env : Env) (p : String)
    (hfs : env.fsExists (.str p) = true) (hp : p.data.isEmpty = false) :
    stripDots (pyLower "JPG.") = "jpg"
  ∧ (processImage env (some "convert_image_format")
      [("image_path", .str p), ("output_format", .str "JPG.")]).calls
      = [.setQuality 85,
         .save (pathJoin (dirname p) ((splitext (basename p)).1 ++ ".jpg"))] := by
  refine ⟨by decide, ?_⟩
  have hv : getArg [("image_path", Value.str p), ("output_format", Value.str "JPG.")]
      "image_path" = some (.str p) := by with_unfolding_all rfl
  have hof : getArg [("image_path", Value.str p), ("output_format", Value.str "JPG.")]
      "output_format" = some (.str "JPG.") := by with_unfolding_all rfl
  have hq : argOrNone [("image_path", Value.str p), ("output_format", Value.str "JPG.")]
      "quality" = none := by with_unfolding_all rfl
  have hfalsy : isFalsy (Value.str p) = false := hp
  simp only [processImage, hv, hfalsy, Bool.false_eq_true, if_false, hfs, if_true]
  have hps : pyStr (Value.str p) = p := rfl
  rw [hps]
  simp only [dispatch]
  rw [if_neg (by decide), if_pos (by trivial)]
  simp only [convertRun, hof]
  rw [show isFalsy (Value.str "JPG.") = false from by decide]
  simp only [Bool.false_eq_true, if_false, hq]
  rw [show stripDots (pyLower "JPG.") = "jpg" from by decide]
  rw [String.append_assoc]
  rw [show ("." ++ "jpg" : String) = ".jpg" from by decide]
  rfl

/-- Closed witness for C8 at a concrete path. -/
theorem convert_JPG_dot_witness :
    stripDots (pyLower "JPG.") = "jpg"
  ∧ (processImage envC (some "convert_image_format")
      [("image_path", .str "/a/img.png"), ("output_format", .str "JPG.")]).calls
      = [.setQuality 85,
         .save (pathJoin (dirname "/a/img.png")
           ((splitext (basename "/a/img.png")).1 ++ ".jpg"))] :=
  convert_JPG_dot_normalizes envC "/a/img.png" rfl rfl

/-!
### C9: unknown operation names
-/

/-- Predicate: `needle` occurs as a contiguous substring of `hay`. -/
def substrOf (needle hay : String) : Prop := ∃ a b, hay = a ++ needle ++ b

theorem substrOf_append_left (n t s : String) (h : substrOf n t) :
    substrOf n (s ++ t) := by
  obtain ⟨a, b, hab⟩ := h
  refine ⟨s ++ a, b, ?_⟩
  rw [hab]
  simp [String.append_assoc]

theorem substrOf_unknownToolMsg (name : Option String) (op : String)
    (h : substrOf op "'. Available tools are: binarize_image, blur_image, convert_image_format, get_image_info, grayscale_image, modify_colors, resize_image") :
    substrOf op (unknownToolMsg name) := by
  simp only [unknownToolMsg]
  exact substrOf_append_left _ _ _ h

/-- C9: an invocation whose operation name is none of the seven
supported names (given a provided, existing image path) returns exactly
the unknown-tool error text — which contains all seven valid operation
names — and performs no engine call, so no output file is written; the
handler returns a response rather than terminating. -/
theorem unknown_tool_error_lists_names (env : Env) (name : Option String)
    (args : ArgBag) (v : Value)
    (hname : ∀ t, name = some t →
      t ∉ ["binarize_image", "blur_image", "convert_image_format", "get_image_info",
           "grayscale_image", "modify_colors", "resize_image"])
    (hv : getArg args "image_path" = some v) (hfalsy : isFalsy v = false)
    (hfs : env.fsExists v = true) :
    processImage env name args = ⟨[unknownToolMsg name], []⟩
  ∧ ∀ op ∈ ["binarize_image", "blur_image", "convert_image_format", "get_image_info",
            "grayscale_image", "modify_colors", "resize_image"],
      substrOf op (unknownToolMsg name) := by
  have hne : ∀ s : String,
      s ∈ ["binarize_image", "blur_image", "convert_image_format", "get_image_info",
           "grayscale_image", "modify_colors", "resize_image"] → ¬(name = some s) :=
    fun s hs h => hname s h hs
  constructor
  · simp only [processImage, hv, hfalsy, Bool.false_eq_true, if_false, hfs, if_true]
    simp only [dispatch]
    rw [if_neg (hne "binarize_image" (by decide)),
        if_neg (hne "convert_image_format" (by decide)),
        if_neg (hne "resize_image" (by decide)),
        if_neg (hne "blur_image" (by decide)),
        if_neg (hne "grayscale_image" (by decide)),
        if_neg (hne "get_image_info" (by decide)),
        if_neg (hne "modify_colors" (by decide))]
  · intro op hop
    simp only [List.mem_cons, List.not_mem_nil, or_false] at hop
    rcases hop with rfl | rfl | rfl | rfl | rfl | rfl | rfl
    · exact substrOf_unknownToolMsg name _
        ⟨"'. Available tools are: ",
         ", blur_image, convert_image_format, get_image_info, grayscale_image, modify_colors, resize_image",
         by decide⟩
    · exact substrOf_unknownToolMsg name _
        ⟨"'. Available tools are: binarize_image, ",
         ", convert_image_format, get_image_info, grayscale_image, modify_colors, resize_image",
         by decide⟩
    · exact substrOf_unknownToolMsg name _
        ⟨"'. Available tools are: binarize_image, blur_image, ",
         ", get_image_info, grayscale_image, modify_colors, resize_image",
         by decide⟩
    · exact substrOf_unknownToolMsg name _
        ⟨"'. Available tools are: binarize_image, blur_image, convert_image_format, ",
         ", grayscale_image, modify_colors, resize_image",
         by decide⟩
    · exact substrOf_unknownToolMsg name _
        ⟨"'. Available tools are: binarize_image, blur_image, convert_image_format, get_image_info, ",
         ", modify_colors, resize_image",
         by decide⟩
    · exact substrOf_unknownToolMsg name _
        ⟨"'. Available tools are: binarize_image, blur_image, convert_image_format, get_image_info, grayscale_image, ",
         ", resize_image",
         by decide⟩
    · exact substrOf_unknownToolMsg name _
        ⟨"'. Available tools are: binarize_image, blur_image, convert_image_format, get_image_info, grayscale_image, modify_colors, ",
         "",
         by decide⟩

/-- Closed witness for C9 at the unknown name `"sharpen_image"`. -/
theorem unknown_tool_witness :
    processImage envC (some "sharpen_image") [("image_path", .str "/a/img.png")]
      = ⟨[unknownToolMsg (some "sharpen_image")], []⟩ :=
  (unknown_tool_error_lists_names envC (some "sharpen_image")
    [("image_path", .str "/a/img.png")] (.str "/a/img.png")
    (fun t h => by
      have ht : t = "sharpen_image" := by
        injection h with h'
        exact h'.symm
      rw [ht]
      decide)
    (by with_unfolding_all rfl) (by with_unfolding_all rfl) rfl).1

/-!
### C10: path validation precedes dispatch
-/

theorem unknownToolMsg_take_eight (name : Option String) :
    (unknownToolMsg name).data.take 8 = "Error: U".data := by
  simp only [unknownToolMsg, String.data_append, List.append_assoc]
  rw [List.take_append_of_le_length (by decide)]
  decide

theorem no_path_msg_ne_unknownToolMsg (name : Option String) :
    "Error: No image path provided" ≠ unknownToolMsg name := by
  intro h
  have h8 : ("Error: No image path provided").data.take 8
      = (unknownToolMsg name).data.take 8 := by rw [h]
  rw [unknownToolMsg_take_eight] at h8
  exact absurd h8 (by decide)

theorem not_found_msg_ne_unknownToolMsg (name : Option String) (s : String) :
    "Error: Image file not found at " ++ s ≠ unknownToolMsg name := by
  intro h
  have h8 : ("Error: Image file not found at " ++ s).data.take 8
      = (unknownToolMsg name).data.take 8 := by rw [h]
  rw [unknownToolMsg_take_eight, String.data_append,
    List.take_append_of_le_length (by decide)] at h8
  exact absurd h8 (by decide)

/-- C10: for every operation name (known or not), the image-path checks
run before dispatch: a missing or falsy `image_path` always answers
`"Error: No image path provided"`, a present but non-existing path
always answers `"Error: Image file not found at <path>"` (in both cases
with no engine call), and the unknown-tool error can only appear when
the arguments carry a truthy path to an existing file. -/
theorem path_checks_precede_dispatch :
    (∀ env name args,
       (getArg args "image_path" = none
          ∨ ∃ v, getArg args "image_path" = some v ∧ isFalsy v = true) →
       processImage env name args = ⟨["Error: No image path provided"], []⟩)
  ∧ (∀ env name args v, getArg args "image_path" = some v → isFalsy v = false →
       env.fsExists v = false →
       processImage env name args
         = ⟨["Error: Image file not found at " ++ pyStr v], []⟩)
  ∧ (∀ env name args, (processImage env name args).content = [unknownToolMsg name] →
       ∃ v, getArg args "image_path" = some v ∧ isFalsy v = false
          ∧ env.fsExists v = true) := by
  refine ⟨?_, ?_, ?_⟩
  · intro env name args h
    rcases h with h | ⟨v, hv, hf⟩
    · simp [processImage, h]
    · simp [processImage, hv, hf]
  · intro env name args v hv hf he
    simp [processImage, hv, hf, he]
  · intro env name args h
    cases hv : getArg args "image_path" with
    | none =>
      simp only [processImage, hv] at h
      exact absurd (List.head_eq_of_cons_eq h) (no_path_msg_ne_unknownToolMsg name)
    | some v =>
      by_cases hf : isFalsy v
      · simp only [processImage, hv, hf, if_true] at h
        exact absurd (List.head_eq_of_cons_eq h) (no_path_msg_ne_unknownToolMsg name)
      · by_cases he : env.fsExists v
        · exact ⟨v, rfl, by simpa using hf, by simpa using he⟩
        · simp only [processImage, hv, hf, Bool.false_eq_true, if_false, he] at h
          exact absurd (List.head_eq_of_cons_eq h)
            (not_found_msg_ne_unknownToolMsg name (pyStr v))

/-- Closed witness for C10: an empty argument bag yields the missing
image-path error for an unknown operation name too. -/
theorem path_checks_witness :
    processImage envC (some "sharpen_image") []
      = ⟨["Error: No image path provided"], []⟩ :=
  path_checks_precede_dispatch.1 envC (some "sharpen_image") [] (Or.inl rfl)
